import Mathlib

/-!
# The scrypt JNI bridge (`jni/scrypt-jni.c`)

A shallow embedding of `Java_com_crypho_plugins_ScryptPlugin_scrypt` and of its two
helpers `callIntMethod` and `throwException`.

* Everything the bridge does to the outside world (JNI accesses, `malloc`, `free`, the
  call of `libscrypt_scrypt`, logging) is appended to a trace of `Event`s, in program order.
* What the JVM, the allocator and the engine answer is read from an `Env`.
* The locals `passphrase`, `salt_bytes`, `hashbuf` and `result` are declared with their
  initialiser *after* the first `goto END`; on a path that jumps over the initialiser the
  value read at `END` is indeterminate.  The embedding takes those indeterminate values as
  the parameter `stack : Locals`.
* `errno` and the pending Java exception are fields of the `State`.
-/

namespace ScryptJni

/-! ## Values -/

abbrev Byte := Nat

/-- A `jint` (32-bit signed). -/
abbrev jint := Int

/-- A native address; `0` is `NULL`. -/
abbrev Ptr := Nat

/-- A JNI reference (`jobject`, `jclass`, `jbyteArray`); `0` is `NULL`. -/
abbrev JRef := Nat

abbrev MethodID := Nat

def NULL : Nat := 0

/-- Release mode of `jni.h`: free the buffer without copying back. -/
def JNI_ABORT : Int := 2

/-- Release mode of `jni.h`: copy back and keep the buffer. -/
def JNI_COMMIT : Int := 1

/-- Values of `errno.h` on Linux and Android. -/
def EINVAL : Int := 22

def EFBIG : Int := 27

def ENOMEM : Int := 12

/-- Modelled from the spec: the macro `SCRYPT_N` of `libscrypt.h`, which is not part of the
sources at hand; the spec gives the default `N=16384`. -/
def SCRYPT_N : jint := 16384

/-- Modelled from the spec: the macro `SCRYPT_r` of `libscrypt.h`; the spec gives the
default `r=8`. -/
def SCRYPT_r : jint := 8

/-- Modelled from the spec: the macro `SCRYPT_p` of `libscrypt.h`; the spec gives the
default `p=1`. -/
def SCRYPT_p : jint := 1

/-- Conversion of a signed integer to an unsigned type of `w` bits. -/
def toUnsigned (w : Nat) (x : Int) : Nat := (x % 2 ^ w).toNat

/-- A Java `int` as a `jint`: the value modulo `2^32`, in the range `-2^31 .. 2^31 - 1`. -/
def wrap32 (v : Int) : jint := (v + 2147483648) % 4294967296 - 2147483648

/-- A Java exception: raised by the JVM itself, or thrown by the bridge with `ThrowNew`. -/
inductive Throwable where
  | jvm (what : String)
  | thrown (clazz : JRef) (msg : String)
deriving DecidableEq, Repr

/-- The two arrays the caller hands in. -/
inductive ArrayId where
  | pass
  | salt
deriving DecidableEq, Repr

/-- A non-null `jobject` handed in for `N`, `r`, `p` or `dkLen`: what `CallIntMethod` yields
on it for a given method ID (a value, or an exception). -/
structure JObject where
  invoke : MethodID → Except Throwable jint

/-- The arguments of `libscrypt_scrypt`, after the implicit conversions to its parameter
types (`size_t`, `uint64_t`, `uint32_t`); `passwd` and `salt` are the bytes found behind the
two `const uint8_t *` arguments. -/
structure EngineArgs where
  passwd : List Byte
  passwdlen : Nat
  salt : List Byte
  saltlen : Nat
  N : Nat
  r : Nat
  p : Nat
  buflen : Nat
deriving DecidableEq, Repr

/-- What a call of `libscrypt_scrypt` does: its return value, the value it stores into
`errno` (if it stores one), and the bytes it stores into `buf`, from `buf[0]` on. -/
structure EngineResult where
  ret : Int
  errno : Option Int
  out : List Byte

/-- The externally visible actions of the bridge. -/
inductive Event where
  | LOGE (msg : String)
  | CallIntMethod (method : MethodID)
  | GetArrayLength (array : ArrayId)
  | GetByteArrayElements (array : ArrayId) (elems : Ptr)
  | malloc (size : Nat) (p : Ptr)
  | libscrypt_scrypt (passwd salt buf : Ptr) (args : EngineArgs)
  | FindClass (name : String)
  | ThrowNew (clazz : JRef) (msg : String)
  | NewByteArray (len : jint) (array : JRef)
  | SetByteArrayRegion (array : JRef) (start len : jint) (buf : Ptr)
  | ReleaseByteArrayElements (array : ArrayId) (elems : Ptr) (mode : Int)
  | free (p : Ptr) (held : Option (List Byte))
deriving DecidableEq, Repr

/-- The answers of the JVM, of the allocator and of the engine. -/
structure Env where
  /-- Whether `size_t` has 64 bits (otherwise 32). -/
  lp64 : Bool
  /-- The exception `GetArrayLength` leaves pending, if any. -/
  getLengthExc : ArrayId → Option Throwable
  /-- The address `GetByteArrayElements` hands out; `NULL` when it fails. -/
  elems : ArrayId → Ptr
  /-- The address `malloc` returns for a size; `NULL` when it fails. -/
  mallocRet : Nat → Ptr
  /-- The indeterminate content of freshly allocated memory. -/
  heapInit : Nat → Byte
  engine : EngineArgs → EngineResult
  /-- The class reference `FindClass` returns; `NULL` when it fails. -/
  findClass : String → JRef
  /-- The reference `NewByteArray` returns for a length; `NULL` when it fails. -/
  newByteArray : jint → JRef
  /-- The exception `SetByteArrayRegion` leaves pending, if any. -/
  setRegionExc : Option Throwable

/-- Width of `size_t` in bits. -/
def Env.sizeBits (env : Env) : Nat := if env.lp64 then 64 else 32

/-- The file-scope variables of the bridge, set by `JNI_OnLoad`. -/
structure Globals where
  JC_Integer : JRef
  JMID_Integer_intValue : MethodID

/-- The locals that the cleanup at `END` and the `return` read. -/
structure Locals where
  passphrase : Ptr
  salt_bytes : Ptr
  hashbuf : Ptr
  result : JRef
deriving DecidableEq, Repr

/-- The state a call runs in. -/
structure State where
  errno : Int
  /-- The pending Java exception. -/
  pending : Option Throwable
  /-- Every exception raised so far, oldest first. -/
  raised : List Throwable
  /-- The actions so far, oldest first. -/
  trace : List Event
  /-- The caller's arrays, in the Java heap. -/
  passArr : List Byte
  saltArr : List Byte
  /-- The element buffers on loan from the JVM: address and content. -/
  passBuf : Option (Ptr × List Byte)
  saltBuf : Option (Ptr × List Byte)
  /-- The live block obtained from `malloc`: address and content. -/
  hashmem : Option (Ptr × List Byte)
  /-- The array made by `NewByteArray`: reference and content. -/
  created : Option (JRef × List Byte)

/-- The state on entry of the native method: nothing pending, nothing acquired. -/
def State.entry (pass salt : List Byte) (errno : Int) : State :=
  { errno := errno, pending := none, raised := [], trace := [], passArr := pass, saltArr := salt,
    passBuf := none, saltBuf := none, hashmem := none, created := none }

/-! ## The environment's operations -/

def emit (e : Event) (s : State) : State :=
  { s with trace := s.trace ++ [e] }

def raise (t : Throwable) (s : State) : State :=
  { s with pending := some t, raised := s.raised ++ [t] }

def ExceptionOccurred (s : State) : Bool :=
  s.pending.isSome

def LOGE (msg : String) (s : State) : State :=
  emit (Event.LOGE msg) s

def arrayOf (s : State) : ArrayId → List Byte
  | ArrayId.pass => s.passArr
  | ArrayId.salt => s.saltArr

def bufOf (s : State) : ArrayId → Option (Ptr × List Byte)
  | ArrayId.pass => s.passBuf
  | ArrayId.salt => s.saltBuf

def setArray (a : ArrayId) (bytes : List Byte) (s : State) : State :=
  match a with
  | ArrayId.pass => { s with passArr := bytes }
  | ArrayId.salt => { s with saltArr := bytes }

def setBuf (a : ArrayId) (b : Option (Ptr × List Byte)) (s : State) : State :=
  match a with
  | ArrayId.pass => { s with passBuf := b }
  | ArrayId.salt => { s with saltBuf := b }

/-- The bytes behind a loaned or allocated block. -/
def content (b : Option (Ptr × List Byte)) : List Byte :=
  match b with
  | some (_, bytes) => bytes
  | none => []

/-- `CallIntMethod`: the value of the call, or a pending exception (the value returned is
then unspecified; `0` stands for it). -/
def CallIntMethod (obj : JObject) (method : MethodID) (s : State) : jint × State :=
  match obj.invoke method with
  | Except.ok v => (wrap32 v, emit (Event.CallIntMethod method) s)
  | Except.error t => (0, raise t (emit (Event.CallIntMethod method) s))

/-- `GetArrayLength`. -/
def GetArrayLength (env : Env) (a : ArrayId) (s : State) : jint × State :=
  match env.getLengthExc a with
  | some t => (0, raise t (emit (Event.GetArrayLength a) s))
  | none => (((arrayOf s a).length : Int), emit (Event.GetArrayLength a) s)

/-- `GetByteArrayElements`: lends a buffer holding the array's bytes, or returns `NULL`
with an `OutOfMemoryError` pending. -/
def GetByteArrayElements (env : Env) (a : ArrayId) (s : State) : Ptr × State :=
  if env.elems a = NULL then
    (NULL, raise (Throwable.jvm "java.lang.OutOfMemoryError")
      (emit (Event.GetByteArrayElements a NULL) s))
  else
    (env.elems a, setBuf a (some (env.elems a, arrayOf s a))
      (emit (Event.GetByteArrayElements a (env.elems a)) s))

/-- `ReleaseByteArrayElements`: with mode `0` or `JNI_COMMIT` the buffer is copied back into
the array, with `JNI_ABORT` it is not; with mode `0` or `JNI_ABORT` the loan ends.  A
pointer that is not on loan for the array is only recorded. -/
def ReleaseByteArrayElements (a : ArrayId) (elems : Ptr) (mode : Int) (s : State) : State :=
  let s1 := emit (Event.ReleaseByteArrayElements a elems mode) s
  match bufOf s1 a with
  | some (q, bytes) =>
    if q = elems then
      let s2 := if mode = JNI_ABORT then s1 else setArray a bytes s1
      if mode = JNI_COMMIT then s2 else setBuf a none s2
    else s1
  | none => s1

/-- `malloc`: a fresh block of `size` bytes of indeterminate content, or `NULL` with
`errno` set to `ENOMEM`. -/
def malloc (env : Env) (size : Nat) (s : State) : Ptr × State :=
  if env.mallocRet size = NULL then
    (NULL, { emit (Event.malloc size NULL) s with errno := ENOMEM })
  else
    (env.mallocRet size,
      { emit (Event.malloc size (env.mallocRet size)) s with
        hashmem := some (env.mallocRet size, (List.range size).map env.heapInit) })

/-- `free`: the event records the bytes the block held when it was released (`none` for
an address that is not a live block). -/
def free (p : Ptr) (s : State) : State :=
  match s.hashmem with
  | some (q, bytes) =>
    if q = p then { emit (Event.free p (some bytes)) s with hashmem := none }
    else emit (Event.free p none) s
  | none => emit (Event.free p none) s

/-- Storing `out` at the start of a block that holds `old`; the block keeps its size. -/
def store (old out : List Byte) : List Byte :=
  (out ++ old.drop out.length).take old.length

/-- The call of `libscrypt_scrypt`, with the conversions of the arguments to the
parameter types `size_t`, `uint64_t` and `uint32_t`. -/
def libscrypt_scrypt (env : Env) (passwd : Ptr) (passwdlen : jint) (salt : Ptr)
    (saltlen : jint) (N r p : jint) (buf : Ptr) (buflen : jint) (s : State) : Int × State :=
  let args : EngineArgs :=
    { passwd := content s.passBuf, passwdlen := toUnsigned env.sizeBits passwdlen,
      salt := content s.saltBuf, saltlen := toUnsigned env.sizeBits saltlen,
      N := toUnsigned 64 N, r := toUnsigned 32 r, p := toUnsigned 32 p,
      buflen := toUnsigned env.sizeBits buflen }
  let res := env.engine args
  (res.ret,
    { emit (Event.libscrypt_scrypt passwd salt buf args) s with
      errno := res.errno.getD s.errno,
      hashmem := s.hashmem.map (fun b => (b.1, store b.2 res.out)) })

/-- `FindClass`: the class, or `NULL` with a `NoClassDefFoundError` pending. -/
def FindClass (env : Env) (name : String) (s : State) : JRef × State :=
  if env.findClass name = NULL then
    (NULL, raise (Throwable.jvm "java.lang.NoClassDefFoundError") (emit (Event.FindClass name) s))
  else
    (env.findClass name, emit (Event.FindClass name) s)

/-- `ThrowNew`: makes an exception of the class pending; with a `NULL` class nothing is
thrown. -/
def ThrowNew (clazz : JRef) (msg : String) (s : State) : State :=
  if clazz = NULL then emit (Event.ThrowNew clazz msg) s
  else raise (Throwable.thrown clazz msg) (emit (Event.ThrowNew clazz msg) s)

/-- `NewByteArray`: a new zero-filled array, or `NULL` with an exception pending (always
so for a negative length). -/
def NewByteArray (env : Env) (len : jint) (s : State) : JRef × State :=
  if len < 0 then
    (NULL, raise (Throwable.jvm "java.lang.NegativeArraySizeException")
      (emit (Event.NewByteArray len NULL) s))
  else if env.newByteArray len = NULL then
    (NULL, raise (Throwable.jvm "java.lang.OutOfMemoryError")
      (emit (Event.NewByteArray len NULL) s))
  else
    (env.newByteArray len,
      { emit (Event.NewByteArray len (env.newByteArray len)) s with
        created := some (env.newByteArray len, List.replicate len.toNat 0) })

/-- `SetByteArrayRegion`: copies `len` bytes of the native block into the array made by
`NewByteArray`, from index `start` on, or leaves an exception pending. -/
def SetByteArrayRegion (env : Env) (array : JRef) (start len : jint) (buf : Ptr)
    (s : State) : State :=
  let s1 := emit (Event.SetByteArrayRegion array start len buf) s
  match env.setRegionExc with
  | some t => raise t s1
  | none =>
    match s1.created with
    | some (ref, bytes) =>
      if ref = array ∧ 0 ≤ start ∧ 0 ≤ len ∧ start + len ≤ (bytes.length : Int) then
        { s1 with created := some (ref,
            bytes.take start.toNat ++ (content s1.hashmem).take len.toNat
              ++ bytes.drop (start.toNat + len.toNat)) }
      else raise (Throwable.jvm "java.lang.ArrayIndexOutOfBoundsException") s1
    | none => raise (Throwable.jvm "java.lang.ArrayIndexOutOfBoundsException") s1

/-! ## The bridge -/

/-- The helper `callIntMethod`. -/
def callIntMethod (method : MethodID) (integerObject : Option JObject) (defaultValue : jint)
    (s : State) : jint × State :=
  match integerObject with
  | none => (defaultValue, s)
  | some obj =>
    let r := CallIntMethod obj method s
    if ExceptionOccurred r.2 then (defaultValue, r.2) else (r.1, r.2)

/-- The helper `throwException`. -/
def throwException (env : Env) (msg : String) (s : State) : State :=
  let r := FindClass env "java/lang/Exception" s
  ThrowNew r.1 msg r.2

/-- The `switch (errno)` that picks `msg_error` after a failed engine call. -/
def msg_error (errno : Int) : String :=
  if errno = EINVAL then "N must be a power of 2 greater than 1."
  else if errno = EFBIG ∨ errno = ENOMEM then "Insufficient memory available."
  else "Memory allocation failed."

/-- The code from the label `END` on: the three conditional releases and the `return`. -/
def END (l : Locals) (s : State) : JRef × State :=
  let s1 := if l.passphrase ≠ NULL then
      ReleaseByteArrayElements ArrayId.pass l.passphrase JNI_ABORT s else s
  let s2 := if l.salt_bytes ≠ NULL then
      ReleaseByteArrayElements ArrayId.salt l.salt_bytes JNI_ABORT s1 else s1
  let s3 := if l.hashbuf ≠ NULL then free l.hashbuf s2 else s2
  (l.result, s3)

/-- The native method.  `stack` holds the indeterminate values the four locals have until
their initialiser is executed. -/
def Java_com_crypho_plugins_ScryptPlugin_scrypt (env : Env) (g : Globals) (stack : Locals)
    (N r p dkLen : Option JObject) (s : State) : JRef × State :=
  let c1 := callIntMethod g.JMID_Integer_intValue N SCRYPT_N s
  let c2 := callIntMethod g.JMID_Integer_intValue r SCRYPT_r c1.2
  let c3 := callIntMethod g.JMID_Integer_intValue p SCRYPT_p c2.2
  let c4 := callIntMethod g.JMID_Integer_intValue dkLen 32 c3.2
  let N_i := c1.1
  let r_i := c2.1
  let p_i := c3.1
  let dkLen_i := c4.1
  let a1 := GetArrayLength env ArrayId.pass c4.2
  let passLen := a1.1
  if ExceptionOccurred a1.2 then
    END stack (LOGE "Failed to get passphrase lenght." a1.2)
  else
  let a2 := GetArrayLength env ArrayId.salt a1.2
  let saltLen := a2.1
  if ExceptionOccurred a2.2 then
    END stack (LOGE "Failed to get salt lenght." a2.2)
  else
  let e1 := GetByteArrayElements env ArrayId.pass a2.2
  let l1 := { stack with passphrase := e1.1 }
  if ExceptionOccurred e1.2 then
    END l1 (LOGE "Failed to get passphrase elements." e1.2)
  else
  let e2 := GetByteArrayElements env ArrayId.salt e1.2
  let l2 := { l1 with salt_bytes := e2.1 }
  if ExceptionOccurred e2.2 then
    END l2 (LOGE "Failed to get salt elements." e2.2)
  else
  let m := malloc env (toUnsigned env.sizeBits dkLen_i) e2.2
  let l3 := { l2 with hashbuf := m.1 }
  if m.1 = NULL then
    END l3 (throwException env "Failed to malloc hashbuf."
      (LOGE "Failed to malloc hashbuf." m.2))
  else
  let k := libscrypt_scrypt env l3.passphrase passLen l3.salt_bytes saltLen N_i r_i p_i
    l3.hashbuf dkLen_i m.2
  if k.1 ≠ 0 then
    END l3 (throwException env (msg_error k.2.errno) k.2)
  else
  let n := NewByteArray env dkLen_i k.2
  let l4 := { l3 with result := n.1 }
  if ExceptionOccurred n.2 then
    END l4 (LOGE "Failed to allocate result buffer." n.2)
  else
  let w := SetByteArrayRegion env l4.result 0 dkLen_i l4.hashbuf n.2
  if ExceptionOccurred w then
    END l4 (LOGE "Failed to set result buffer." w)
  else
    END l4 w

/-! ## Vocabulary for the statements -/

/-- Whether `CallIntMethod` raises on the object handed in for a parameter. -/
def raises (m : MethodID) (o : Option JObject) : Bool :=
  match o with
  | none => false
  | some obj =>
    match obj.invoke m with
    | Except.ok _ => false
    | Except.error _ => true

/-- The value of a parameter: the default for `NULL`, else the object's `int` value. -/
def intArg (m : MethodID) (o : Option JObject) (d : jint) : jint :=
  match o with
  | none => d
  | some obj =>
    match obj.invoke m with
    | Except.ok v => wrap32 v
    | Except.error _ => d

/-- The value `callIntMethod` returns, given the exception pending before the call. -/
def argValue (m : MethodID) (o : Option JObject) (d : jint) (pend : Option Throwable) : jint :=
  match o with
  | none => d
  | some obj =>
    match obj.invoke m with
    | Except.ok v => if pend.isSome then d else wrap32 v
    | Except.error _ => d

/-- The exception pending after `callIntMethod`, given the one pending before. -/
def argPending (m : MethodID) (o : Option JObject) (pend : Option Throwable) :
    Option Throwable :=
  match o with
  | none => pend
  | some obj =>
    match obj.invoke m with
    | Except.ok _ => pend
    | Except.error t => some t

/-- The exceptions `callIntMethod` raises. -/
def argRaised (m : MethodID) (o : Option JObject) : List Throwable :=
  match o with
  | none => []
  | some obj =>
    match obj.invoke m with
    | Except.ok _ => []
    | Except.error t => [t]

/-- The actions of `callIntMethod`. -/
def argTrace (m : MethodID) (o : Option JObject) : List Event :=
  match o with
  | none => []
  | some _ => [Event.CallIntMethod m]

/-- The `dkLen_i` of a call in which no `CallIntMethod` raises. -/
def dkLenOf (g : Globals) (dkLen : Option JObject) : jint :=
  intArg g.JMID_Integer_intValue dkLen 32

/-- The size handed to `malloc`: `sizeof(uint8_t) * dkLen_i`, a `size_t`. -/
def hashSize (env : Env) (g : Globals) (dkLen : Option JObject) : Nat :=
  toUnsigned env.sizeBits (dkLenOf g dkLen)

/-- The address of the output buffer. -/
def hashPtr (env : Env) (g : Globals) (dkLen : Option JObject) : Ptr :=
  env.mallocRet (hashSize env g dkLen)

/-- The arguments the engine is called with when no JNI access before it fails. -/
def engineArgs (env : Env) (g : Globals) (pass salt : List Byte)
    (N r p dkLen : Option JObject) : EngineArgs :=
  { passwd := pass, passwdlen := toUnsigned env.sizeBits (pass.length : Int),
    salt := salt, saltlen := toUnsigned env.sizeBits (salt.length : Int),
    N := toUnsigned 64 (intArg g.JMID_Integer_intValue N SCRYPT_N),
    r := toUnsigned 32 (intArg g.JMID_Integer_intValue r SCRYPT_r),
    p := toUnsigned 32 (intArg g.JMID_Integer_intValue p SCRYPT_p),
    buflen := toUnsigned env.sizeBits (dkLenOf g dkLen) }

/-- What the engine does in such a call. -/
def engineRun (env : Env) (g : Globals) (pass salt : List Byte)
    (N r p dkLen : Option JObject) : EngineResult :=
  env.engine (engineArgs env g pass salt N r p dkLen)

/-- The bytes of the output buffer when the engine returns. -/
def hashBytes (env : Env) (g : Globals) (pass salt : List Byte)
    (N r p dkLen : Option JObject) : List Byte :=
  store ((List.range (hashSize env g dkLen)).map env.heapInit)
    (engineRun env g pass salt N r p dkLen).out

/-- Every JNI access up to the allocation of the output buffer succeeds: no
`CallIntMethod` raises, no `GetArrayLength` raises, both `GetByteArrayElements` lend a
buffer. -/
structure Acquires (env : Env) (g : Globals) (N r p dkLen : Option JObject) : Prop where
  argN : raises g.JMID_Integer_intValue N = false
  argr : raises g.JMID_Integer_intValue r = false
  argp : raises g.JMID_Integer_intValue p = false
  argdkLen : raises g.JMID_Integer_intValue dkLen = false
  passLen : env.getLengthExc ArrayId.pass = none
  saltLen : env.getLengthExc ArrayId.salt = none
  passElems : env.elems ArrayId.pass ≠ NULL
  saltElems : env.elems ArrayId.salt ≠ NULL

/-- The exception `throwException` leaves pending. -/
def excOf (env : Env) (msg : String) : Throwable :=
  if env.findClass "java/lang/Exception" = NULL then
    Throwable.jvm "java.lang.NoClassDefFoundError"
  else Throwable.thrown (env.findClass "java/lang/Exception") msg

/-- The actions of a call up to the allocation of the output buffer, when every access
succeeds. -/
def prologue (env : Env) (g : Globals) (N r p dkLen : Option JObject) : List Event :=
  argTrace g.JMID_Integer_intValue N ++ (argTrace g.JMID_Integer_intValue r ++
    (argTrace g.JMID_Integer_intValue p ++ (argTrace g.JMID_Integer_intValue dkLen ++
      [Event.GetArrayLength ArrayId.pass, Event.GetArrayLength ArrayId.salt,
        Event.GetByteArrayElements ArrayId.pass (env.elems ArrayId.pass),
        Event.GetByteArrayElements ArrayId.salt (env.elems ArrayId.salt)])))

/-- The two releases at `END` when both buffers were lent. -/
def releases (env : Env) : List Event :=
  [Event.ReleaseByteArrayElements ArrayId.pass (env.elems ArrayId.pass) JNI_ABORT,
    Event.ReleaseByteArrayElements ArrayId.salt (env.elems ArrayId.salt) JNI_ABORT]

/-- The exception `NewByteArray` leaves pending when it fails. -/
def newExc (len : jint) : Throwable :=
  if len < 0 then Throwable.jvm "java.lang.NegativeArraySizeException"
  else Throwable.jvm "java.lang.OutOfMemoryError"

/-- The actions of `throwException`. -/
def throwing (env : Env) (msg : String) : List Event :=
  [Event.FindClass "java/lang/Exception",
    Event.ThrowNew (env.findClass "java/lang/Exception") msg]

/-- What the Java caller observes of a call: the array behind the returned reference, or
the exception that is pending when the method returns. -/
inductive Outcome where
  | returned (array : Option (List Byte))
  | failed (t : Throwable)
deriving DecidableEq, Repr

/-- The bytes of the array a reference designates, among the arrays made by the call. -/
def arrayAt (s : State) (ref : JRef) : Option (List Byte) :=
  match s.created with
  | some (q, bytes) => if q = ref then some bytes else none
  | none => none

/-- The outcome of a call, from the returned reference and the final state. -/
def outcome (x : JRef × State) : Outcome :=
  match x.2.pending with
  | some t => Outcome.failed t
  | none => Outcome.returned (arrayAt x.2 x.1)

/-- Whether an action is a call of `free`. -/
def Event.isFree : Event → Bool
  | Event.free _ _ => true
  | _ => false

/-- The invariant of the code before `END`: the caller's arrays are as they were on entry
and no buffer has been released. -/
def Untouched (pass salt : List Byte) (s : State) : Prop :=
  s.passArr = pass ∧ s.saltArr = salt ∧
    ∀ a q m, Event.ReleaseByteArrayElements a q m ∉ s.trace

/-- What the claim on the caller's arrays asks of a finished call: both arrays are as
they were on entry, and every release was made in `JNI_ABORT` mode. -/
def Kept (pass salt : List Byte) (x : JRef × State) : Prop :=
  x.2.passArr = pass ∧ x.2.saltArr = salt ∧
    ∀ a q m, Event.ReleaseByteArrayElements a q m ∈ x.2.trace → m = JNI_ABORT

/-! ## Concrete inputs -/

/-- A stand-in for the engine `libscrypt_scrypt`, whose source is not at hand, used to run
the bridge at concrete inputs; the statements about all calls range over every engine.  It
rejects a size `128 * r * p` of `2^30` or more with `EFBIG`, `r = 0`, `p = 0` and an `N`
that is not a power of two greater than 1 with `EINVAL`, fails with `ENOMEM` when the table
of `128 * r * N` bytes takes `2^31` bytes or more, and else fills the buffer with a fixed
pattern in place of the derived key. -/
def sampleEngine (a : EngineArgs) : EngineResult :=
  if 2 ^ 30 ≤ 128 * a.r * a.p then { ret := -1, errno := some EFBIG, out := [] }
  else if a.r = 0 ∨ a.p = 0 then { ret := -1, errno := some EINVAL, out := [] }
  else if a.N < 2 ∨ a.N &&& (a.N - 1) ≠ 0 then { ret := -1, errno := some EINVAL, out := [] }
  else if 2 ^ 31 ≤ 128 * a.r * a.N then { ret := -1, errno := some ENOMEM, out := [] }
  else { ret := 0, errno := none, out := (List.range a.buflen).map (fun i => (7 * i + 1) % 256) }

/-- An engine that reports a failure by its return value alone and leaves `errno` as it
found it. -/
def silentEngine (_ : EngineArgs) : EngineResult :=
  { ret := -1, errno := none, out := [] }

/-- An environment in which every access succeeds; fresh memory holds `0xAA`. -/
def sampleEnv : Env :=
  { lp64 := true, getLengthExc := fun _ => none,
    elems := fun a => match a with
      | ArrayId.pass => 4096
      | ArrayId.salt => 8192,
    mallocRet := fun _ => 12288, heapInit := fun _ => 170, engine := sampleEngine,
    findClass := fun _ => 5, newByteArray := fun _ => 9, setRegionExc := none }

/-- As `sampleEnv`, but `malloc` fails. -/
def noMemoryEnv : Env :=
  { sampleEnv with mallocRet := fun _ => NULL }

/-- As `sampleEnv`, but `GetByteArrayElements` fails for the passphrase. -/
def noElementsEnv : Env :=
  { sampleEnv with elems := fun a => match a with
      | ArrayId.pass => NULL
      | ArrayId.salt => 8192 }

/-- As `sampleEnv`, with the engine that fails without storing into `errno`. -/
def silentEnv : Env :=
  { sampleEnv with engine := silentEngine }

/-- A `java.lang.Integer` of the given value, in a JVM in which `intValue` has the method
ID 77. -/
def jInteger (v : jint) : Option JObject :=
  some { invoke := fun m =>
    if m = 77 then Except.ok v else Except.error (Throwable.jvm "java.lang.NoSuchMethodError") }

/-- The globals as `JNI_OnLoad` leaves them in that JVM. -/
def sampleGlobals : Globals :=
  { JC_Integer := 3, JMID_Integer_intValue := 77 }

/-- Indeterminate values of the four locals: `0xDEAD`, `0xBEEF`, `0xCAFE`, `0xBABE`. -/
def garbage : Locals :=
  { passphrase := 57005, salt_bytes := 48879, hashbuf := 51966, result := 47806 }

/-! ## Lemmas on the helpers -/

theorem callIntMethod_eq (m : MethodID) (o : Option JObject) (d : jint) (s : State) :
    callIntMethod m o d s =
      (argValue m o d s.pending,
        { s with pending := argPending m o s.pending, raised := s.raised ++ argRaised m o,
                 trace := s.trace ++ argTrace m o }) := by
  cases o with
  | none => simp [callIntMethod, argValue, argPending, argRaised, argTrace]
  | some obj =>
    cases h : obj.invoke m with
    | ok v =>
      by_cases hp : s.pending.isSome <;>
        simp [callIntMethod, CallIntMethod, argValue, argPending, argRaised, argTrace, h,
          ExceptionOccurred, emit, hp]
    | error t =>
      simp [callIntMethod, CallIntMethod, argValue, argPending, argRaised, argTrace, h,
        ExceptionOccurred, emit, raise]

theorem argValue_of_quiet (m : MethodID) (o : Option JObject) (d : jint)
    (h : raises m o = false) : argValue m o d none = intArg m o d := by
  cases o with
  | none => rfl
  | some obj =>
    simp only [raises] at h
    cases hi : obj.invoke m <;> simp [argValue, intArg, hi]

theorem argPending_of_quiet (m : MethodID) (o : Option JObject) (pend : Option Throwable)
    (h : raises m o = false) : argPending m o pend = pend := by
  cases o with
  | none => rfl
  | some obj =>
    simp only [raises] at h
    cases hi : obj.invoke m <;> simp_all [argPending]

theorem argRaised_of_quiet (m : MethodID) (o : Option JObject)
    (h : raises m o = false) : argRaised m o = [] := by
  cases o with
  | none => rfl
  | some obj =>
    simp only [raises] at h
    cases hi : obj.invoke m <;> simp_all [argRaised]

theorem wrap32_lt (v : Int) : wrap32 v < 2147483648 := by
  show (v + 2147483648) % 4294967296 - 2147483648 < (2147483648 : Int)
  omega

theorem wrap32_ge (v : Int) : -2147483648 ≤ wrap32 v := by
  show (-2147483648 : Int) ≤ (v + 2147483648) % 4294967296 - 2147483648
  omega

theorem intArg_lt (m : MethodID) (o : Option JObject) (d : jint) (hd : d < 2147483648) :
    intArg m o d < 2147483648 := by
  cases o with
  | none => exact hd
  | some obj =>
    simp only [intArg]
    cases obj.invoke m with
    | ok v => exact wrap32_lt v
    | error t => exact hd

theorem toUnsigned_size (env : Env) (x : Int) (h0 : 0 ≤ x) (h1 : x < 2147483648) :
    toUnsigned env.sizeBits x = x.toNat := by
  unfold toUnsigned Env.sizeBits
  cases env.lp64 <;> simp <;> congr 1 <;> omega

theorem store_length (old out : List Byte) : (store old out).length = old.length := by
  simp [store]; omega

theorem abort_ne_commit : JNI_ABORT ≠ JNI_COMMIT := by decide

/-! ## The paths through the native method -/

theorem malloc_fail_path (env : Env) (g : Globals) (stack : Locals)
    (N r p dkLen : Option JObject) (pass salt : List Byte) (errno : Int)
    (hacq : Acquires env g N r p dkLen) (hm : hashPtr env g dkLen = NULL) :
    Java_com_crypho_plugins_ScryptPlugin_scrypt env g stack N r p dkLen
        (State.entry pass salt errno) =
      (stack.result,
        { errno := ENOMEM,
          pending := some (excOf env "Failed to malloc hashbuf."),
          raised := [excOf env "Failed to malloc hashbuf."],
          trace := prologue env g N r p dkLen ++
            ([Event.malloc (hashSize env g dkLen) NULL, Event.LOGE "Failed to malloc hashbuf."]
              ++ (throwing env "Failed to malloc hashbuf." ++ releases env)),
          passArr := pass, saltArr := salt, passBuf := none, saltBuf := none,
          hashmem := none, created := none }) := by
  obtain ⟨h1, h2, h3, h4, h5, h6, h7, h8⟩ := hacq
  simp only [hashPtr, hashSize, dkLenOf] at hm
  by_cases hc : env.findClass "java/lang/Exception" = NULL <;>
    simp [Java_com_crypho_plugins_ScryptPlugin_scrypt, callIntMethod_eq, State.entry,
      argValue_of_quiet, argPending_of_quiet, argRaised_of_quiet, GetArrayLength,
      GetByteArrayElements, malloc, END, ReleaseByteArrayElements, free, ExceptionOccurred,
      emit, raise, LOGE, setBuf, setArray, arrayOf, bufOf, throwException, FindClass,
      ThrowNew, excOf, prologue, releases, throwing, hashSize, dkLenOf,
      abort_ne_commit, h1, h2, h3, h4, h5, h6, h7, h8, hm, hc]

theorem engine_fail_path (env : Env) (g : Globals) (stack : Locals)
    (N r p dkLen : Option JObject) (pass salt : List Byte) (errno : Int)
    (hacq : Acquires env g N r p dkLen) (hm : hashPtr env g dkLen ≠ NULL)
    (hret : (engineRun env g pass salt N r p dkLen).ret ≠ 0) :
    Java_com_crypho_plugins_ScryptPlugin_scrypt env g stack N r p dkLen
        (State.entry pass salt errno) =
      (stack.result,
        { errno := (engineRun env g pass salt N r p dkLen).errno.getD errno,
          pending := some (excOf env
            (msg_error ((engineRun env g pass salt N r p dkLen).errno.getD errno))),
          raised := [excOf env
            (msg_error ((engineRun env g pass salt N r p dkLen).errno.getD errno))],
          trace := prologue env g N r p dkLen ++
            ([Event.malloc (hashSize env g dkLen) (hashPtr env g dkLen),
              Event.libscrypt_scrypt (env.elems ArrayId.pass) (env.elems ArrayId.salt)
                (hashPtr env g dkLen) (engineArgs env g pass salt N r p dkLen)]
              ++ (throwing env
                    (msg_error ((engineRun env g pass salt N r p dkLen).errno.getD errno))
                ++ (releases env ++
                  [Event.free (hashPtr env g dkLen)
                    (some (hashBytes env g pass salt N r p dkLen))]))),
          passArr := pass, saltArr := salt, passBuf := none, saltBuf := none,
          hashmem := none, created := none }) := by
  obtain ⟨h1, h2, h3, h4, h5, h6, h7, h8⟩ := hacq
  simp only [hashPtr, hashSize, dkLenOf] at hm
  simp only [engineRun, engineArgs, dkLenOf] at hret
  by_cases hc : env.findClass "java/lang/Exception" = NULL <;>
    simp [Java_com_crypho_plugins_ScryptPlugin_scrypt, callIntMethod_eq, State.entry,
      argValue_of_quiet, argPending_of_quiet, argRaised_of_quiet, GetArrayLength,
      GetByteArrayElements, malloc, libscrypt_scrypt, END, ReleaseByteArrayElements, free,
      ExceptionOccurred, emit, raise, LOGE, setBuf, setArray, arrayOf, bufOf, content,
      throwException, FindClass, ThrowNew, excOf, prologue, releases, throwing, hashSize,
      hashPtr, hashBytes, engineRun, engineArgs, dkLenOf,
      abort_ne_commit, h1, h2, h3, h4, h5, h6, h7, h8, hm, hret, hc]

theorem take_hashBytes (env : Env) (g : Globals) (pass salt : List Byte)
    (N r p dkLen : Option JObject) (h0 : 0 ≤ dkLenOf g dkLen) :
    (hashBytes env g pass salt N r p dkLen).take (dkLenOf g dkLen).toNat =
      hashBytes env g pass salt N r p dkLen := by
  apply List.take_of_length_le
  have h1 : dkLenOf g dkLen < 2147483648 := intArg_lt _ _ _ (by decide)
  simp [hashBytes, store_length, hashSize, toUnsigned_size env _ h0 h1]

theorem hashBytes_length (env : Env) (g : Globals) (pass salt : List Byte)
    (N r p dkLen : Option JObject) (h0 : 0 ≤ dkLenOf g dkLen) :
    (hashBytes env g pass salt N r p dkLen).length = (dkLenOf g dkLen).toNat := by
  have h1 : dkLenOf g dkLen < 2147483648 := intArg_lt _ _ _ (by decide)
  simp [hashBytes, store_length, hashSize, toUnsigned_size env _ h0 h1]

theorem success_path (env : Env) (g : Globals) (stack : Locals)
    (N r p dkLen : Option JObject) (pass salt : List Byte) (errno : Int)
    (hacq : Acquires env g N r p dkLen) (hm : hashPtr env g dkLen ≠ NULL)
    (hret : (engineRun env g pass salt N r p dkLen).ret = 0)
    (h0 : 0 ≤ dkLenOf g dkLen) (hnew : env.newByteArray (dkLenOf g dkLen) ≠ NULL)
    (hset : env.setRegionExc = none) :
    Java_com_crypho_plugins_ScryptPlugin_scrypt env g stack N r p dkLen
        (State.entry pass salt errno) =
      (env.newByteArray (dkLenOf g dkLen),
        { errno := (engineRun env g pass salt N r p dkLen).errno.getD errno,
          pending := none,
          raised := [],
          trace := prologue env g N r p dkLen ++
            ([Event.malloc (hashSize env g dkLen) (hashPtr env g dkLen),
              Event.libscrypt_scrypt (env.elems ArrayId.pass) (env.elems ArrayId.salt)
                (hashPtr env g dkLen) (engineArgs env g pass salt N r p dkLen),
              Event.NewByteArray (dkLenOf g dkLen) (env.newByteArray (dkLenOf g dkLen)),
              Event.SetByteArrayRegion (env.newByteArray (dkLenOf g dkLen)) 0
                (dkLenOf g dkLen) (hashPtr env g dkLen)]
              ++ (releases env ++
                  [Event.free (hashPtr env g dkLen)
                    (some (hashBytes env g pass salt N r p dkLen))])),
          passArr := pass, saltArr := salt, passBuf := none, saltBuf := none,
          hashmem := none,
          created := some (env.newByteArray (dkLenOf g dkLen),
            hashBytes env g pass salt N r p dkLen) }) := by
  obtain ⟨h1, h2, h3, h4, h5, h6, h7, h8⟩ := hacq
  have htake := take_hashBytes env g pass salt N r p dkLen h0
  simp only [hashPtr, hashSize, dkLenOf] at hm
  simp only [engineRun, engineArgs, dkLenOf] at hret
  simp only [hashBytes, engineRun, engineArgs, hashSize, dkLenOf] at htake
  simp only [dkLenOf] at hnew h0
  have h0n : ¬ intArg g.JMID_Integer_intValue dkLen 32 < 0 := not_lt.mpr h0
  simp [Java_com_crypho_plugins_ScryptPlugin_scrypt, callIntMethod_eq, State.entry,
    argValue_of_quiet, argPending_of_quiet, argRaised_of_quiet, GetArrayLength,
    GetByteArrayElements, malloc, libscrypt_scrypt, NewByteArray, SetByteArrayRegion, END,
    ReleaseByteArrayElements, free,
    ExceptionOccurred, emit, raise, LOGE, setBuf, setArray, arrayOf, bufOf, content,
    prologue, releases, hashSize,
    hashPtr, hashBytes, engineRun, engineArgs, dkLenOf,
    abort_ne_commit, h1, h2, h3, h4, h5, h6, h7, h8, hm, hret, hnew, hset, h0n, h0, htake]

theorem new_fail_path (env : Env) (g : Globals) (stack : Locals)
    (N r p dkLen : Option JObject) (pass salt : List Byte) (errno : Int)
    (hacq : Acquires env g N r p dkLen) (hm : hashPtr env g dkLen ≠ NULL)
    (hret : (engineRun env g pass salt N r p dkLen).ret = 0)
    (hnew : dkLenOf g dkLen < 0 ∨ env.newByteArray (dkLenOf g dkLen) = NULL) :
    Java_com_crypho_plugins_ScryptPlugin_scrypt env g stack N r p dkLen
        (State.entry pass salt errno) =
      (NULL,
        { errno := (engineRun env g pass salt N r p dkLen).errno.getD errno,
          pending := some (newExc (dkLenOf g dkLen)),
          raised := [newExc (dkLenOf g dkLen)],
          trace := prologue env g N r p dkLen ++
            ([Event.malloc (hashSize env g dkLen) (hashPtr env g dkLen),
              Event.libscrypt_scrypt (env.elems ArrayId.pass) (env.elems ArrayId.salt)
                (hashPtr env g dkLen) (engineArgs env g pass salt N r p dkLen),
              Event.NewByteArray (dkLenOf g dkLen) NULL,
              Event.LOGE "Failed to allocate result buffer."]
              ++ (releases env ++
                  [Event.free (hashPtr env g dkLen)
                    (some (hashBytes env g pass salt N r p dkLen))])),
          passArr := pass, saltArr := salt, passBuf := none, saltBuf := none,
          hashmem := none, created := none }) := by
  obtain ⟨h1, h2, h3, h4, h5, h6, h7, h8⟩ := hacq
  simp only [hashPtr, hashSize, dkLenOf] at hm
  simp only [engineRun, engineArgs, dkLenOf] at hret
  simp only [dkLenOf] at hnew
  by_cases hneg : intArg g.JMID_Integer_intValue dkLen 32 < 0
  · simp [Java_com_crypho_plugins_ScryptPlugin_scrypt, callIntMethod_eq, State.entry,
      argValue_of_quiet, argPending_of_quiet, argRaised_of_quiet, GetArrayLength,
      GetByteArrayElements, malloc, libscrypt_scrypt, NewByteArray, END,
      ReleaseByteArrayElements, free, newExc,
      ExceptionOccurred, emit, raise, LOGE, setBuf, setArray, arrayOf, bufOf, content,
      prologue, releases, hashSize,
      hashPtr, hashBytes, engineRun, engineArgs, dkLenOf,
      abort_ne_commit, h1, h2, h3, h4, h5, h6, h7, h8, hm, hret, hneg]
  · have hnull : env.newByteArray (intArg g.JMID_Integer_intValue dkLen 32) = NULL := by
      rcases hnew with h | h
      · exact absurd h hneg
      · exact h
    simp [Java_com_crypho_plugins_ScryptPlugin_scrypt, callIntMethod_eq, State.entry,
      argValue_of_quiet, argPending_of_quiet, argRaised_of_quiet, GetArrayLength,
      GetByteArrayElements, malloc, libscrypt_scrypt, NewByteArray, END,
      ReleaseByteArrayElements, free, newExc,
      ExceptionOccurred, emit, raise, LOGE, setBuf, setArray, arrayOf, bufOf, content,
      prologue, releases, hashSize,
      hashPtr, hashBytes, engineRun, engineArgs, dkLenOf,
      abort_ne_commit, h1, h2, h3, h4, h5, h6, h7, h8, hm, hret, hneg, hnull]

theorem set_fail_path (env : Env) (g : Globals) (stack : Locals)
    (N r p dkLen : Option JObject) (pass salt : List Byte) (errno : Int) (t : Throwable)
    (hacq : Acquires env g N r p dkLen) (hm : hashPtr env g dkLen ≠ NULL)
    (hret : (engineRun env g pass salt N r p dkLen).ret = 0)
    (h0 : 0 ≤ dkLenOf g dkLen) (hnew : env.newByteArray (dkLenOf g dkLen) ≠ NULL)
    (hset : env.setRegionExc = some t) :
    Java_com_crypho_plugins_ScryptPlugin_scrypt env g stack N r p dkLen
        (State.entry pass salt errno) =
      (env.newByteArray (dkLenOf g dkLen),
        { errno := (engineRun env g pass salt N r p dkLen).errno.getD errno,
          pending := some t,
          raised := [t],
          trace := prologue env g N r p dkLen ++
            ([Event.malloc (hashSize env g dkLen) (hashPtr env g dkLen),
              Event.libscrypt_scrypt (env.elems ArrayId.pass) (env.elems ArrayId.salt)
                (hashPtr env g dkLen) (engineArgs env g pass salt N r p dkLen),
              Event.NewByteArray (dkLenOf g dkLen) (env.newByteArray (dkLenOf g dkLen)),
              Event.SetByteArrayRegion (env.newByteArray (dkLenOf g dkLen)) 0
                (dkLenOf g dkLen) (hashPtr env g dkLen),
              Event.LOGE "Failed to set result buffer."]
              ++ (releases env ++
                  [Event.free (hashPtr env g dkLen)
                    (some (hashBytes env g pass salt N r p dkLen))])),
          passArr := pass, saltArr := salt, passBuf := none, saltBuf := none,
          hashmem := none,
          created := some (env.newByteArray (dkLenOf g dkLen),
            List.replicate (dkLenOf g dkLen).toNat 0) }) := by
  obtain ⟨h1, h2, h3, h4, h5, h6, h7, h8⟩ := hacq
  simp only [hashPtr, hashSize, dkLenOf] at hm
  simp only [engineRun, engineArgs, dkLenOf] at hret
  simp only [dkLenOf] at hnew h0
  have h0n : ¬ intArg g.JMID_Integer_intValue dkLen 32 < 0 := not_lt.mpr h0
  simp [Java_com_crypho_plugins_ScryptPlugin_scrypt, callIntMethod_eq, State.entry,
    argValue_of_quiet, argPending_of_quiet, argRaised_of_quiet, GetArrayLength,
    GetByteArrayElements, malloc, libscrypt_scrypt, NewByteArray, SetByteArrayRegion, END,
    ReleaseByteArrayElements, free,
    ExceptionOccurred, emit, raise, LOGE, setBuf, setArray, arrayOf, bufOf, content,
    prologue, releases, hashSize,
    hashPtr, hashBytes, engineRun, engineArgs, dkLenOf,
    abort_ne_commit, h1, h2, h3, h4, h5, h6, h7, h8, hm, hret, hnew, hset, h0n, h0]

/-! ## The cleanup at `END` -/

theorem END_fst (l : Locals) (s : State) : (END l s).1 = l.result := rfl

theorem ReleaseByteArrayElements_abort (a : ArrayId) (q : Ptr) (s : State) :
    (ReleaseByteArrayElements a q JNI_ABORT s).pending = s.pending ∧
    (ReleaseByteArrayElements a q JNI_ABORT s).created = s.created ∧
    (ReleaseByteArrayElements a q JNI_ABORT s).passArr = s.passArr ∧
    (ReleaseByteArrayElements a q JNI_ABORT s).saltArr = s.saltArr ∧
    (ReleaseByteArrayElements a q JNI_ABORT s).raised = s.raised ∧
    (ReleaseByteArrayElements a q JNI_ABORT s).trace =
      s.trace ++ [Event.ReleaseByteArrayElements a q JNI_ABORT] := by
  cases a <;>
    simp only [ReleaseByteArrayElements, bufOf, emit] <;>
    split <;> (try split) <;> simp [abort_ne_commit, setBuf]

theorem free_frame (q : Ptr) (s : State) :
    (free q s).pending = s.pending ∧ (free q s).created = s.created ∧
    (free q s).passArr = s.passArr ∧ (free q s).saltArr = s.saltArr ∧
    (free q s).raised = s.raised ∧
    ∃ held, (free q s).trace = s.trace ++ [Event.free q held] := by
  simp only [free]
  split
  · split <;> simp [emit]
  · simp [emit]

theorem END_frame (l : Locals) (s : State) :
    (END l s).2.pending = s.pending ∧ (END l s).2.created = s.created ∧
    (END l s).2.passArr = s.passArr ∧ (END l s).2.saltArr = s.saltArr ∧
    (END l s).2.raised = s.raised := by
  simp only [END]
  split_ifs <;>
    simp [(ReleaseByteArrayElements_abort _ _ _).1, (ReleaseByteArrayElements_abort _ _ _).2.1,
      (ReleaseByteArrayElements_abort _ _ _).2.2.1,
      (ReleaseByteArrayElements_abort _ _ _).2.2.2.1,
      (ReleaseByteArrayElements_abort _ _ _).2.2.2.2.1,
      (free_frame _ _).1, (free_frame _ _).2.1, (free_frame _ _).2.2.1,
      (free_frame _ _).2.2.2.1, (free_frame _ _).2.2.2.2.1]

theorem outcome_END (l : Locals) (s : State) :
    outcome (END l s) = outcome (l.result, s) := by
  obtain ⟨h1, h2, -, -, -⟩ := END_frame l s
  simp [outcome, arrayAt, h1, h2, END_fst]

theorem mem_argTrace (e : Event) (m : MethodID) (o : Option JObject) :
    e ∈ argTrace m o → e = Event.CallIntMethod m := by
  cases o <;> simp [argTrace]

theorem mem_prologue (e : Event) (env : Env) (g : Globals) (N r p dkLen : Option JObject)
    (h : e ∈ prologue env g N r p dkLen) :
    e = Event.CallIntMethod g.JMID_Integer_intValue ∨
    e = Event.GetArrayLength ArrayId.pass ∨ e = Event.GetArrayLength ArrayId.salt ∨
    e = Event.GetByteArrayElements ArrayId.pass (env.elems ArrayId.pass) ∨
    e = Event.GetByteArrayElements ArrayId.salt (env.elems ArrayId.salt) := by
  simp only [prologue, List.mem_append, List.mem_cons, List.mem_singleton] at h
  rcases h with h | h | h | h | h
  · exact Or.inl (mem_argTrace _ _ _ h)
  · exact Or.inl (mem_argTrace _ _ _ h)
  · exact Or.inl (mem_argTrace _ _ _ h)
  · exact Or.inl (mem_argTrace _ _ _ h)
  · simp at h
    tauto

theorem filter_isFree_prologue (env : Env) (g : Globals) (N r p dkLen : Option JObject) :
    (prologue env g N r p dkLen).filter Event.isFree = [] := by
  rw [List.filter_eq_nil_iff]
  intro e he
  rcases mem_prologue e env g N r p dkLen he with h | h | h | h | h <;> simp [h, Event.isFree]

/-- In a call that reaches the engine, the trace continues after the prologue with the
allocation and the engine call; after a successful engine call `NewByteArray` is called
with `dkLen_i`; an array made by the call has `dkLen_i` elements. -/
theorem engine_reached (env : Env) (g : Globals) (stack : Locals)
    (N r p dkLen : Option JObject) (pass salt : List Byte) (errno : Int)
    (hacq : Acquires env g N r p dkLen) (hm : hashPtr env g dkLen ≠ NULL) :
    (∃ rest, (Java_com_crypho_plugins_ScryptPlugin_scrypt env g stack N r p dkLen
        (State.entry pass salt errno)).2.trace =
      prologue env g N r p dkLen ++
        ([Event.malloc (hashSize env g dkLen) (hashPtr env g dkLen),
          Event.libscrypt_scrypt (env.elems ArrayId.pass) (env.elems ArrayId.salt)
            (hashPtr env g dkLen) (engineArgs env g pass salt N r p dkLen)] ++ rest) ∧
      ((engineRun env g pass salt N r p dkLen).ret = 0 →
        ∃ ref rest', rest = Event.NewByteArray (dkLenOf g dkLen) ref :: rest')) ∧
    (∀ ref bytes, (Java_com_crypho_plugins_ScryptPlugin_scrypt env g stack N r p dkLen
        (State.entry pass salt errno)).2.created = some (ref, bytes) →
      bytes.length = (dkLenOf g dkLen).toNat) := by
  by_cases hret : (engineRun env g pass salt N r p dkLen).ret = 0
  · by_cases hnew : dkLenOf g dkLen < 0 ∨ env.newByteArray (dkLenOf g dkLen) = NULL
    · rw [new_fail_path env g stack N r p dkLen pass salt errno hacq hm hret hnew]
      exact ⟨⟨_, rfl, fun _ => ⟨_, _, rfl⟩⟩, by simp⟩
    · have h0 : 0 ≤ dkLenOf g dkLen := not_lt.mp (fun h => hnew (Or.inl h))
      have hn : env.newByteArray (dkLenOf g dkLen) ≠ NULL := fun h => hnew (Or.inr h)
      cases hset : env.setRegionExc with
      | none =>
        rw [success_path env g stack N r p dkLen pass salt errno hacq hm hret h0 hn hset]
        refine ⟨⟨_, rfl, fun _ => ⟨_, _, rfl⟩⟩, ?_⟩
        intro ref bytes h
        simp only [Option.some.injEq, Prod.mk.injEq] at h
        rw [← h.2]
        exact hashBytes_length env g pass salt N r p dkLen h0
      | some t =>
        rw [set_fail_path env g stack N r p dkLen pass salt errno t hacq hm hret h0 hn hset]
        refine ⟨⟨_, rfl, fun _ => ⟨_, _, rfl⟩⟩, ?_⟩
        intro ref bytes h
        simp only [Option.some.injEq, Prod.mk.injEq] at h
        rw [← h.2]
        simp
  · rw [engine_fail_path env g stack N r p dkLen pass salt errno hacq hm hret]
    exact ⟨⟨_, rfl, fun h => absurd h hret⟩, by simp⟩

theorem cleanup_step (P : Event → Prop) (s s1 : State) (f : State → State) (c : Prop)
    [Decidable c] (hf : ∀ x, ∃ e, (f x).trace = x.trace ++ [e] ∧ P e)
    (h : ∃ ext, s1.trace = s.trace ++ ext ∧ ∀ e ∈ ext, P e) :
    ∃ ext, (if c then f s1 else s1).trace = s.trace ++ ext ∧ ∀ e ∈ ext, P e := by
  obtain ⟨ext, h1, h2⟩ := h
  split_ifs
  · obtain ⟨e, he, hP⟩ := hf s1
    refine ⟨ext ++ [e], by rw [he, h1, List.append_assoc], ?_⟩
    intro x hx
    rcases List.mem_append.mp hx with hx | hx
    · exact h2 x hx
    · rw [List.mem_singleton.mp hx]
      exact hP
  · exact ⟨ext, h1, h2⟩

theorem END_trace (l : Locals) (s : State) :
    ∃ ext, (END l s).2.trace = s.trace ++ ext ∧
      ∀ e ∈ ext, (∃ a q, e = Event.ReleaseByteArrayElements a q JNI_ABORT) ∨
        (∃ q held, e = Event.free q held) := by
  simp only [END]
  apply cleanup_step
  · intro x
    obtain ⟨held, hf⟩ := (free_frame l.hashbuf x).2.2.2.2.2
    exact ⟨_, hf, Or.inr ⟨_, _, rfl⟩⟩
  apply cleanup_step
  · intro x
    exact ⟨_, (ReleaseByteArrayElements_abort _ _ x).2.2.2.2.2, Or.inl ⟨_, _, rfl⟩⟩
  apply cleanup_step
  · intro x
    exact ⟨_, (ReleaseByteArrayElements_abort _ _ x).2.2.2.2.2, Or.inl ⟨_, _, rfl⟩⟩
  exact ⟨[], by simp, by simp⟩

theorem Kept_END (pass salt : List Byte) (l : Locals) (s : State)
    (h : Untouched pass salt s) : Kept pass salt (END l s) := by
  obtain ⟨hp, hs, hr⟩ := h
  obtain ⟨-, -, h3, h4, -⟩ := END_frame l s
  obtain ⟨ext, htr, hext⟩ := END_trace l s
  refine ⟨h3.trans hp, h4.trans hs, ?_⟩
  intro a q m hmem
  rw [htr, List.mem_append] at hmem
  rcases hmem with h | h
  · exact absurd h (hr a q m)
  · rcases hext _ h with ⟨a', q', he⟩ | ⟨q', held, he⟩
    · simp only [Event.ReleaseByteArrayElements.injEq] at he
      exact he.2.2
    · cases he

theorem Kept_ite (pass salt : List Byte) (c : Prop) [Decidable c] (x y : JRef × State)
    (hx : Kept pass salt x) (hy : Kept pass salt y) :
    Kept pass salt (if c then x else y) := by
  split <;> assumption

theorem Untouched_entry (pass salt : List Byte) (errno : Int) :
    Untouched pass salt (State.entry pass salt errno) := by
  simp [Untouched, State.entry]

theorem Untouched_callIntMethod (pass salt : List Byte) (m : MethodID) (o : Option JObject)
    (d : jint) (s : State) (h : Untouched pass salt s) :
    Untouched pass salt (callIntMethod m o d s).2 := by
  obtain ⟨hp, hs, hr⟩ := h
  rw [callIntMethod_eq]
  refine ⟨hp, hs, ?_⟩
  intro a q md hmem
  simp only [List.mem_append] at hmem
  rcases hmem with h | h
  · exact hr a q md h
  · cases mem_argTrace _ _ _ h

theorem Untouched_LOGE (pass salt : List Byte) (msg : String) (s : State)
    (h : Untouched pass salt s) : Untouched pass salt (LOGE msg s) := by
  obtain ⟨hp, hs, hr⟩ := h
  exact ⟨hp, hs, by simpa [LOGE, emit] using hr⟩

theorem Untouched_GetArrayLength (pass salt : List Byte) (env : Env) (a : ArrayId) (s : State)
    (h : Untouched pass salt s) : Untouched pass salt (GetArrayLength env a s).2 := by
  obtain ⟨hp, hs, hr⟩ := h
  simp only [GetArrayLength]
  split <;> exact ⟨hp, hs, by simpa [raise, emit] using hr⟩

theorem Untouched_GetByteArrayElements (pass salt : List Byte) (env : Env) (a : ArrayId)
    (s : State) (h : Untouched pass salt s) :
    Untouched pass salt (GetByteArrayElements env a s).2 := by
  obtain ⟨hp, hs, hr⟩ := h
  simp only [GetByteArrayElements]
  split
  · exact ⟨hp, hs, by simpa [raise, emit] using hr⟩
  · cases a <;> exact ⟨hp, hs, by simpa [setBuf, emit] using hr⟩

theorem Untouched_malloc (pass salt : List Byte) (env : Env) (n : Nat) (s : State)
    (h : Untouched pass salt s) : Untouched pass salt (malloc env n s).2 := by
  obtain ⟨hp, hs, hr⟩ := h
  simp only [malloc]
  split <;> exact ⟨hp, hs, by simpa [emit] using hr⟩

theorem Untouched_libscrypt_scrypt (pass salt : List Byte) (env : Env) (pw : Ptr)
    (pwlen : jint) (sa : Ptr) (salen : jint) (N r p : jint) (buf : Ptr) (buflen : jint)
    (s : State) (h : Untouched pass salt s) :
    Untouched pass salt (libscrypt_scrypt env pw pwlen sa salen N r p buf buflen s).2 := by
  obtain ⟨hp, hs, hr⟩ := h
  exact ⟨hp, hs, by simpa [libscrypt_scrypt, emit] using hr⟩

theorem Untouched_throwException (pass salt : List Byte) (env : Env) (msg : String)
    (s : State) (h : Untouched pass salt s) :
    Untouched pass salt (throwException env msg s) := by
  obtain ⟨hp, hs, hr⟩ := h
  simp only [throwException, FindClass, ThrowNew]
  split <;> exact ⟨hp, hs, by simpa [raise, emit, NULL] using hr⟩

theorem Untouched_NewByteArray (pass salt : List Byte) (env : Env) (len : jint) (s : State)
    (h : Untouched pass salt s) : Untouched pass salt (NewByteArray env len s).2 := by
  obtain ⟨hp, hs, hr⟩ := h
  simp only [NewByteArray]
  split_ifs <;> exact ⟨hp, hs, by simpa [raise, emit] using hr⟩

theorem Untouched_SetByteArrayRegion (pass salt : List Byte) (env : Env) (array : JRef)
    (start len : jint) (buf : Ptr) (s : State) (h : Untouched pass salt s) :
    Untouched pass salt (SetByteArrayRegion env array start len buf s) := by
  obtain ⟨hp, hs, hr⟩ := h
  simp only [SetByteArrayRegion]
  split
  · exact ⟨hp, hs, by simpa [raise, emit] using hr⟩
  · split
    · split_ifs <;> exact ⟨hp, hs, by simpa [raise, emit] using hr⟩
    · exact ⟨hp, hs, by simpa [raise, emit] using hr⟩

theorem scrypt_untouched (env : Env) (g : Globals) (stack : Locals)
    (N r p dkLen : Option JObject) (pass salt : List Byte) (errno : Int) :
    Kept pass salt (Java_com_crypho_plugins_ScryptPlugin_scrypt env g stack N r p dkLen
      (State.entry pass salt errno)) := by
  simp only [Java_com_crypho_plugins_ScryptPlugin_scrypt]
  repeat' (first
    | exact Untouched_entry pass salt errno
    | apply Kept_ite
    | apply Kept_END
    | apply Untouched_LOGE
    | apply Untouched_throwException
    | apply Untouched_SetByteArrayRegion
    | apply Untouched_NewByteArray
    | apply Untouched_libscrypt_scrypt
    | apply Untouched_malloc
    | apply Untouched_GetByteArrayElements
    | apply Untouched_GetArrayLength
    | apply Untouched_callIntMethod)

/-! ## The claims -/

/-- C1: in a call in which every JNI access succeeds, the output buffer is allocated and
`libscrypt_scrypt` returns 0, no exception is pending on return, the reference returned is
the array made by `NewByteArray`, that array has exactly `dkLen` bytes, and they are the
bytes the output buffer holds when the engine returns, in the same order (the first
`dkLen` bytes the engine wrote, when it wrote the whole buffer); `NewByteArray(dkLen)` is
directly followed by `SetByteArrayRegion(result, 0, dkLen, hashbuf)`.  The engine call and
the final `free` of the buffer, holding those bytes, are in the trace. -/
theorem scrypt_returns_engine_output (env : Env) (g : Globals) (stack : Locals)
    (N r p dkLen : Option JObject) (pass salt : List Byte) (errno : Int)
    (hacq : Acquires env g N r p dkLen) (hm : hashPtr env g dkLen ≠ NULL)
    (hret : (engineRun env g pass salt N r p dkLen).ret = 0)
    (h0 : 0 ≤ dkLenOf g dkLen) (hnew : env.newByteArray (dkLenOf g dkLen) ≠ NULL)
    (hset : env.setRegionExc = none) :
    let o := Java_com_crypho_plugins_ScryptPlugin_scrypt env g stack N r p dkLen
      (State.entry pass salt errno)
    o.2.pending = none ∧
    o.2.created = some (o.1, hashBytes env g pass salt N r p dkLen) ∧
    (hashBytes env g pass salt N r p dkLen).length = (dkLenOf g dkLen).toNat ∧
    (hashSize env g dkLen ≤ (engineRun env g pass salt N r p dkLen).out.length →
      hashBytes env g pass salt N r p dkLen =
        (engineRun env g pass salt N r p dkLen).out.take (dkLenOf g dkLen).toNat) ∧
    [Event.NewByteArray (dkLenOf g dkLen) o.1,
      Event.SetByteArrayRegion o.1 0 (dkLenOf g dkLen) (hashPtr env g dkLen)]
        <:+: o.2.trace ∧
    Event.libscrypt_scrypt (env.elems ArrayId.pass) (env.elems ArrayId.salt)
      (hashPtr env g dkLen) (engineArgs env g pass salt N r p dkLen) ∈ o.2.trace ∧
    Event.free (hashPtr env g dkLen) (some (hashBytes env g pass salt N r p dkLen))
      ∈ o.2.trace := by
  intro o
  have ho : o = _ :=
    success_path env g stack N r p dkLen pass salt errno hacq hm hret h0 hnew hset
  rw [ho]
  refine ⟨rfl, rfl, hashBytes_length env g pass salt N r p dkLen h0, ?_, ?_, by simp,
    by simp⟩
  · intro hlen
    have h1 : dkLenOf g dkLen < 2147483648 := intArg_lt _ _ _ (by decide)
    have hsz : hashSize env g dkLen = (dkLenOf g dkLen).toNat := toUnsigned_size env _ h0 h1
    rw [hsz] at hlen
    simp only [hashBytes, store, hsz, List.length_map, List.length_range]
    rw [List.take_append_of_le_length hlen]
  · exact ⟨prologue env g N r p dkLen ++
        [Event.malloc (hashSize env g dkLen) (hashPtr env g dkLen),
          Event.libscrypt_scrypt (env.elems ArrayId.pass) (env.elems ArrayId.salt)
            (hashPtr env g dkLen) (engineArgs env g pass salt N r p dkLen)],
      releases env ++
        [Event.free (hashPtr env g dkLen) (some (hashBytes env g pass salt N r p dkLen))],
      by simp⟩

/-- C1 at a concrete input: `N = 16`, `r = 1`, `p = 1`, `dkLen = 4`; the array returned
holds the four bytes of the engine's pattern. -/
theorem scrypt_returns_engine_output_witness :
    (Java_com_crypho_plugins_ScryptPlugin_scrypt sampleEnv sampleGlobals garbage
      (jInteger 16) (jInteger 1) (jInteger 1) (jInteger 4) (State.entry [1, 2] [3] 0)).2.created
      = some (9, [1, 8, 15, 22]) :=
  (scrypt_returns_engine_output sampleEnv sampleGlobals garbage
    (jInteger 16) (jInteger 1) (jInteger 1) (jInteger 4) [1, 2] [3] 0
    ⟨rfl, rfl, rfl, rfl, rfl, rfl, by decide, by decide⟩ (by decide) (by decide) (by decide)
    (by decide) rfl).2.1.trans (by decide)

/-- C2: in a call in which the output buffer cannot be allocated or `libscrypt_scrypt`
returns non-zero, exactly one exception is raised and it is pending on return; no array is
made or filled (`NewByteArray` and `SetByteArrayRegion` are not executed), and the value
returned is the local `result`, which no statement on the path has assigned: it designates
no array that holds bytes of the output buffer. -/
theorem failure_raises_once_without_result (env : Env) (g : Globals) (stack : Locals)
    (N r p dkLen : Option JObject) (pass salt : List Byte) (errno : Int)
    (hacq : Acquires env g N r p dkLen)
    (hfail : hashPtr env g dkLen = NULL ∨ (engineRun env g pass salt N r p dkLen).ret ≠ 0) :
    let o := Java_com_crypho_plugins_ScryptPlugin_scrypt env g stack N r p dkLen
      (State.entry pass salt errno)
    (∃ msg, o.2.raised = [excOf env msg] ∧ o.2.pending = some (excOf env msg)) ∧
    o.2.created = none ∧ arrayAt o.2 o.1 = none ∧
    (∀ len ref, Event.NewByteArray len ref ∉ o.2.trace) ∧
    (∀ ref start len buf, Event.SetByteArrayRegion ref start len buf ∉ o.2.trace) ∧
    o.1 = stack.result := by
  intro o
  by_cases hp : hashPtr env g dkLen = NULL
  · have ho : o = _ := malloc_fail_path env g stack N r p dkLen pass salt errno hacq hp
    rw [ho]
    refine ⟨⟨_, rfl, rfl⟩, rfl, rfl, ?_, ?_, rfl⟩
    · intro len ref hmem
      simp only [List.mem_append, throwing, releases] at hmem
      rcases hmem with h | h
      · have := mem_prologue _ _ _ _ _ _ _ h
        simp at this
      · simp at h
    · intro ref start len buf hmem
      simp only [List.mem_append, throwing, releases] at hmem
      rcases hmem with h | h
      · have := mem_prologue _ _ _ _ _ _ _ h
        simp at this
      · simp at h
  · have hret : (engineRun env g pass salt N r p dkLen).ret ≠ 0 := by
      rcases hfail with h | h
      · exact absurd h hp
      · exact h
    have ho : o = _ := engine_fail_path env g stack N r p dkLen pass salt errno hacq hp hret
    rw [ho]
    refine ⟨⟨_, rfl, rfl⟩, rfl, rfl, ?_, ?_, rfl⟩
    · intro len ref hmem
      simp only [List.mem_append, throwing, releases] at hmem
      rcases hmem with h | h
      · have := mem_prologue _ _ _ _ _ _ _ h
        simp at this
      · simp at h
    · intro ref start len buf hmem
      simp only [List.mem_append, throwing, releases] at hmem
      rcases hmem with h | h
      · have := mem_prologue _ _ _ _ _ _ _ h
        simp at this
      · simp at h

/-- C2 at a concrete input: `r = 0` is rejected by the engine; one exception is raised and
the value returned is the indeterminate `result`. -/
theorem failure_raises_once_without_result_witness :
    (engineRun sampleEnv sampleGlobals [1, 2] [3]
      (jInteger 16) (jInteger 0) (jInteger 1) (jInteger 4)).ret ≠ 0 ∧
    (Java_com_crypho_plugins_ScryptPlugin_scrypt sampleEnv sampleGlobals garbage
      (jInteger 16) (jInteger 0) (jInteger 1) (jInteger 4) (State.entry [1, 2] [3] 0)).1
      = garbage.result :=
  ⟨by decide,
    (failure_raises_once_without_result sampleEnv sampleGlobals garbage
      (jInteger 16) (jInteger 0) (jInteger 1) (jInteger 4) [1, 2] [3] 0
      ⟨rfl, rfl, rfl, rfl, rfl, rfl, by decide, by decide⟩
      (Or.inr (by decide))).2.2.2.2.2⟩

/-- C3, as stated, fails: when `malloc` returns `NULL` for the output buffer, the
exception raised carries the reason "Failed to malloc hashbuf.", not the
insufficient-memory reason. -/
theorem malloc_failure_reason_counterexample :
    (Java_com_crypho_plugins_ScryptPlugin_scrypt noMemoryEnv sampleGlobals garbage
      (jInteger 16) (jInteger 1) (jInteger 1) (jInteger 4) (State.entry [1, 2] [3] 0)).2.pending
      = some (Throwable.thrown 5 "Failed to malloc hashbuf.") ∧
    "Failed to malloc hashbuf." ≠ "Insufficient memory available." := by
  decide

/-- C3, amended: an engine failure with `errno` `ENOMEM` raises the exception with the
reason "Insufficient memory available.", which differs from the invalid-parameter reason
and from the fallback reason; when the bridge's own output buffer cannot be allocated, the
exception raised carries the separate reason "Failed to malloc hashbuf.", which differs
from those two reasons as well (and from the insufficient-memory reason). -/
theorem allocation_failure_reasons (env : Env) (g : Globals) (stack : Locals)
    (N r p dkLen : Option JObject) (pass salt : List Byte) (errno : Int)
    (hacq : Acquires env g N r p dkLen)
    (hcls : env.findClass "java/lang/Exception" ≠ NULL) :
    let o := Java_com_crypho_plugins_ScryptPlugin_scrypt env g stack N r p dkLen
      (State.entry pass salt errno)
    (hashPtr env g dkLen = NULL →
      o.2.pending = some (Throwable.thrown (env.findClass "java/lang/Exception")
        "Failed to malloc hashbuf.")) ∧
    (hashPtr env g dkLen ≠ NULL → (engineRun env g pass salt N r p dkLen).ret ≠ 0 →
      (engineRun env g pass salt N r p dkLen).errno = some ENOMEM →
      o.2.pending = some (Throwable.thrown (env.findClass "java/lang/Exception")
        "Insufficient memory available.")) ∧
    msg_error ENOMEM = "Insufficient memory available." ∧
    msg_error EINVAL = "N must be a power of 2 greater than 1." ∧
    (∀ e, e ≠ EINVAL → e ≠ EFBIG → e ≠ ENOMEM → msg_error e = "Memory allocation failed.") ∧
    "Insufficient memory available." ≠ "N must be a power of 2 greater than 1." ∧
    "Insufficient memory available." ≠ "Memory allocation failed." ∧
    "Failed to malloc hashbuf." ≠ "N must be a power of 2 greater than 1." ∧
    "Failed to malloc hashbuf." ≠ "Memory allocation failed." ∧
    "Failed to malloc hashbuf." ≠ "Insufficient memory available." := by
  intro o
  refine ⟨?_, ?_, by decide, by decide, ?_, by decide, by decide, by decide, by decide,
    by decide⟩
  · intro hp
    have ho : o = _ := malloc_fail_path env g stack N r p dkLen pass salt errno hacq hp
    rw [ho]
    simp [excOf, hcls]
  · intro hp hret herr
    have ho : o = _ := engine_fail_path env g stack N r p dkLen pass salt errno hacq hp hret
    rw [ho]
    simp [excOf, hcls, herr, msg_error, ENOMEM, EINVAL, EFBIG]
  · intro e h1 h2 h3
    simp [msg_error, h1, h2, h3]

/-- C3 (amended) at concrete inputs: with `malloc` failing the reason is the bridge's
own; with `N = 2^30` and `r = 8` the engine fails with `ENOMEM` and the reason is the
insufficient-memory one. -/
theorem allocation_failure_reasons_witness :
    (hashPtr noMemoryEnv sampleGlobals (jInteger 4) = NULL ∧
      (Java_com_crypho_plugins_ScryptPlugin_scrypt noMemoryEnv sampleGlobals garbage
        (jInteger 16) (jInteger 1) (jInteger 1) (jInteger 4)
        (State.entry [1, 2] [3] 0)).2.pending
        = some (Throwable.thrown (noMemoryEnv.findClass "java/lang/Exception")
            "Failed to malloc hashbuf.")) ∧
    ((engineRun sampleEnv sampleGlobals [1, 2] [3]
        (jInteger 1073741824) (jInteger 8) (jInteger 1) (jInteger 4)).errno = some ENOMEM ∧
      (Java_com_crypho_plugins_ScryptPlugin_scrypt sampleEnv sampleGlobals garbage
        (jInteger 1073741824) (jInteger 8) (jInteger 1) (jInteger 4)
        (State.entry [1, 2] [3] 0)).2.pending
        = some (Throwable.thrown (sampleEnv.findClass "java/lang/Exception")
            "Insufficient memory available.")) :=
  ⟨⟨by decide,
    (allocation_failure_reasons noMemoryEnv sampleGlobals garbage
      (jInteger 16) (jInteger 1) (jInteger 1) (jInteger 4) [1, 2] [3] 0
      ⟨rfl, rfl, rfl, rfl, rfl, rfl, by decide, by decide⟩ (by decide)).1 (by decide)⟩,
   ⟨by decide,
    (allocation_failure_reasons sampleEnv sampleGlobals garbage
      (jInteger 1073741824) (jInteger 8) (jInteger 1) (jInteger 4) [1, 2] [3] 0
      ⟨rfl, rfl, rfl, rfl, rfl, rfl, by decide, by decide⟩ (by decide)).2.1
      (by decide) (by decide) (by decide)⟩⟩

/-- C4, as stated, fails: with `r = 2^23` and `p = 1` the engine rejects the size
(`128 * r * p = 2^30`) with `errno` `EFBIG`, and the reason delivered is the
insufficient-memory reason used for `ENOMEM`. -/
theorem efbig_reason_counterexample :
    (engineRun sampleEnv sampleGlobals [1, 2] [3]
      (jInteger 16) (jInteger 8388608) (jInteger 1) (jInteger 4)).errno = some EFBIG ∧
    (Java_com_crypho_plugins_ScryptPlugin_scrypt sampleEnv sampleGlobals garbage
      (jInteger 16) (jInteger 8388608) (jInteger 1) (jInteger 4)
      (State.entry [1, 2] [3] 0)).2.pending
      = some (Throwable.thrown 5 "Insufficient memory available.") := by
  decide

/-- C4, amended: when the engine returns non-zero with `errno` `EFBIG`, the exception
raised carries the reason "Insufficient memory available.", the very reason used for
`ENOMEM` (the `switch` groups `case EFBIG:` with `case ENOMEM:`); it differs from the reason
used for `EINVAL`. -/
theorem efbig_reported_as_insufficient_memory (env : Env) (g : Globals) (stack : Locals)
    (N r p dkLen : Option JObject) (pass salt : List Byte) (errno : Int)
    (hacq : Acquires env g N r p dkLen) (hm : hashPtr env g dkLen ≠ NULL)
    (hret : (engineRun env g pass salt N r p dkLen).ret ≠ 0)
    (herr : (engineRun env g pass salt N r p dkLen).errno = some EFBIG)
    (hcls : env.findClass "java/lang/Exception" ≠ NULL) :
    (Java_com_crypho_plugins_ScryptPlugin_scrypt env g stack N r p dkLen
      (State.entry pass salt errno)).2.pending
      = some (Throwable.thrown (env.findClass "java/lang/Exception")
          "Insufficient memory available.") ∧
    msg_error EFBIG = msg_error ENOMEM ∧ msg_error EFBIG ≠ msg_error EINVAL := by
  rw [engine_fail_path env g stack N r p dkLen pass salt errno hacq hm hret]
  refine ⟨?_, by decide, by decide⟩
  simp [excOf, hcls, herr, msg_error, ENOMEM, EINVAL, EFBIG]

/-- C4 (amended) at a concrete input: `r = 2^23`, `p = 1`. -/
theorem efbig_reported_as_insufficient_memory_witness :
    (engineRun sampleEnv sampleGlobals [1, 2] [3]
      (jInteger 16) (jInteger 8388608) (jInteger 1) (jInteger 4)).ret ≠ 0 ∧
    (Java_com_crypho_plugins_ScryptPlugin_scrypt sampleEnv sampleGlobals garbage
      (jInteger 16) (jInteger 8388608) (jInteger 1) (jInteger 4)
      (State.entry [1, 2] [3] 0)).2.pending
      = some (Throwable.thrown (sampleEnv.findClass "java/lang/Exception")
          "Insufficient memory available.") :=
  ⟨by decide,
    (efbig_reported_as_insufficient_memory sampleEnv sampleGlobals garbage
      (jInteger 16) (jInteger 8388608) (jInteger 1) (jInteger 4) [1, 2] [3] 0
      ⟨rfl, rfl, rfl, rfl, rfl, rfl, by decide, by decide⟩ (by decide) (by decide)
      (by decide) (by decide)).1⟩

/-- C5, evaluated where the code departs from it: `N = 16` is a power of two greater than
1 and `r = 0`; the engine is called with `N = 16`, `r = 0`, rejects the call with `errno`
`EINVAL`, and the exception raised carries the reason
"N must be a power of 2 greater than 1.". -/
theorem einval_blames_N_when_r_is_zero :
    (engineRun sampleEnv sampleGlobals [1, 2] [3]
      (jInteger 16) (jInteger 0) (jInteger 1) (jInteger 32)).errno = some EINVAL ∧
    (engineArgs sampleEnv sampleGlobals [1, 2] [3]
      (jInteger 16) (jInteger 0) (jInteger 1) (jInteger 32)).N = 2 ^ 4 ∧
    (engineArgs sampleEnv sampleGlobals [1, 2] [3]
      (jInteger 16) (jInteger 0) (jInteger 1) (jInteger 32)).r = 0 ∧
    Event.libscrypt_scrypt 4096 8192 12288 (engineArgs sampleEnv sampleGlobals [1, 2] [3]
      (jInteger 16) (jInteger 0) (jInteger 1) (jInteger 32)) ∈
      (Java_com_crypho_plugins_ScryptPlugin_scrypt sampleEnv sampleGlobals garbage
        (jInteger 16) (jInteger 0) (jInteger 1) (jInteger 32)
        (State.entry [1, 2] [3] 0)).2.trace ∧
    (Java_com_crypho_plugins_ScryptPlugin_scrypt sampleEnv sampleGlobals garbage
      (jInteger 16) (jInteger 0) (jInteger 1) (jInteger 32)
      (State.entry [1, 2] [3] 0)).2.pending
      = some (Throwable.thrown 5 "N must be a power of 2 greater than 1.") := by
  decide

/-- C6: `callIntMethod` returns its `defaultValue` for a `NULL` object; so in a call that
reaches the engine, `libscrypt_scrypt` is handed `N = 16384` when `N` is `NULL`, `r = 8`
when `r` is `NULL`, `p = 1` when `p` is `NULL` and the buffer length 32 when `dkLen` is
`NULL`; the output buffer is then allocated with 32 bytes, `NewByteArray` is called with
32 and an array made by the call has 32 elements. -/
theorem null_parameters_take_defaults (env : Env) (g : Globals) (stack : Locals)
    (N r p dkLen : Option JObject) (pass salt : List Byte) (errno : Int)
    (hacq : Acquires env g N r p dkLen) (hm : hashPtr env g dkLen ≠ NULL) :
    let o := Java_com_crypho_plugins_ScryptPlugin_scrypt env g stack N r p dkLen
      (State.entry pass salt errno)
    let a := engineArgs env g pass salt N r p dkLen
    (∀ (m : MethodID) (d : jint) (s : State), callIntMethod m none d s = (d, s)) ∧
    Event.libscrypt_scrypt (env.elems ArrayId.pass) (env.elems ArrayId.salt)
      (hashPtr env g dkLen) a ∈ o.2.trace ∧
    (N = none → a.N = 16384) ∧ (r = none → a.r = 8) ∧ (p = none → a.p = 1) ∧
    (dkLen = none →
      a.buflen = 32 ∧ Event.malloc 32 (hashPtr env g dkLen) ∈ o.2.trace ∧
      ((engineRun env g pass salt N r p dkLen).ret = 0 →
        ∃ ref, Event.NewByteArray 32 ref ∈ o.2.trace) ∧
      (∀ ref bytes, o.2.created = some (ref, bytes) → bytes.length = 32)) := by
  intro o a
  obtain ⟨⟨rest, htr, hnew⟩, hlen⟩ :=
    engine_reached env g stack N r p dkLen pass salt errno hacq hm
  have h32 : toUnsigned env.sizeBits 32 = 32 :=
    toUnsigned_size env 32 (by decide) (by decide)
  refine ⟨fun m d s => rfl, ?_, ?_, ?_, ?_, ?_⟩
  · show _ ∈ (Java_com_crypho_plugins_ScryptPlugin_scrypt env g stack N r p dkLen
      (State.entry pass salt errno)).2.trace
    rw [htr]
    simp
  · intro h
    subst h
    rfl
  · intro h
    subst h
    rfl
  · intro h
    subst h
    rfl
  · intro h
    subst h
    have hsz : hashSize env g none = 32 := h32
    have hdk : dkLenOf g none = 32 := rfl
    refine ⟨h32, ?_, ?_, ?_⟩
    · show _ ∈ (Java_com_crypho_plugins_ScryptPlugin_scrypt env g stack N r p none
        (State.entry pass salt errno)).2.trace
      rw [htr, hsz]
      simp
    · intro hret
      obtain ⟨ref, rest', hrest⟩ := hnew hret
      refine ⟨ref, ?_⟩
      show _ ∈ (Java_com_crypho_plugins_ScryptPlugin_scrypt env g stack N r p none
        (State.entry pass salt errno)).2.trace
      rw [htr, hrest, hdk]
      simp
    · intro ref bytes h
      have := hlen ref bytes h
      rw [hdk] at this
      exact this

/-- C6 at a concrete input: all four parameters are `NULL`; the engine is handed
`N = 16384`, `r = 8`, `p = 1` and a buffer of 32 bytes. -/
theorem null_parameters_take_defaults_witness :
    hashPtr sampleEnv sampleGlobals none ≠ NULL ∧
    Event.libscrypt_scrypt 4096 8192 12288
      { passwd := [1, 2], passwdlen := 2, salt := [3], saltlen := 1,
        N := 16384, r := 8, p := 1, buflen := 32 } ∈
      (Java_com_crypho_plugins_ScryptPlugin_scrypt sampleEnv sampleGlobals garbage
        none none none none (State.entry [1, 2] [3] 0)).2.trace :=
  ⟨by decide,
    (null_parameters_take_defaults sampleEnv sampleGlobals garbage none none none none
      [1, 2] [3] 0 ⟨rfl, rfl, rfl, rfl, rfl, rfl, by decide, by decide⟩ (by decide)).2.1⟩

/-- C7, evaluated where the code departs from it: `GetByteArrayElements` fails for the
passphrase, so the code jumps to `END` before `salt_bytes` and `hashbuf` are initialised;
with the indeterminate values `0xBEEF` and `0xCAFE` in them, the cleanup releases salt
elements that were never borrowed and frees a block that was never allocated. -/
theorem early_exit_releases_unacquired :
    (Java_com_crypho_plugins_ScryptPlugin_scrypt noElementsEnv sampleGlobals garbage
      none none none none (State.entry [1, 2] [3] 0)).2.trace =
      [Event.GetArrayLength ArrayId.pass, Event.GetArrayLength ArrayId.salt,
        Event.GetByteArrayElements ArrayId.pass NULL,
        Event.LOGE "Failed to get passphrase elements.",
        Event.ReleaseByteArrayElements ArrayId.salt 48879 JNI_ABORT,
        Event.free 51966 none] := by
  decide

/-- C8, as stated, fails: on the engine-failure path (`r = 0`) the output buffer is freed
holding the four bytes `0xAA` it was allocated with, not zeros, and the exception is raised
(`ThrowNew`) before the buffer is freed, not after. -/
theorem unzeroed_free_counterexample :
    Event.free 12288 (some [170, 170, 170, 170]) ∈
      (Java_com_crypho_plugins_ScryptPlugin_scrypt sampleEnv sampleGlobals garbage
        (jInteger 16) (jInteger 0) (jInteger 1) (jInteger 4) (State.entry [1, 2] [3] 0)).2.trace ∧
    List.indexOf (Event.ThrowNew 5 "N must be a power of 2 greater than 1.")
      (Java_com_crypho_plugins_ScryptPlugin_scrypt sampleEnv sampleGlobals garbage
        (jInteger 16) (jInteger 0) (jInteger 1) (jInteger 4) (State.entry [1, 2] [3] 0)).2.trace <
    List.indexOf (Event.free 12288 (some [170, 170, 170, 170]))
      (Java_com_crypho_plugins_ScryptPlugin_scrypt sampleEnv sampleGlobals garbage
        (jInteger 16) (jInteger 0) (jInteger 1) (jInteger 4)
        (State.entry [1, 2] [3] 0)).2.trace := by
  decide

/-- C8, amended: on every error path on which the output buffer was allocated (the engine
returns non-zero, or `NewByteArray` or `SetByteArrayRegion` fails), an exception is pending
on return and the buffer is freed exactly once, as the last action before the method
returns; it is freed holding the bytes the engine left in it (the bridge does not
overwrite it); where the bridge raises the exception itself, `ThrowNew` comes first, then
the two releases, then `free`. -/
theorem output_buffer_freed_on_error (env : Env) (g : Globals) (stack : Locals)
    (N r p dkLen : Option JObject) (pass salt : List Byte) (errno : Int)
    (hacq : Acquires env g N r p dkLen) (hm : hashPtr env g dkLen ≠ NULL)
    (herr : (engineRun env g pass salt N r p dkLen).ret ≠ 0 ∨ dkLenOf g dkLen < 0 ∨
      env.newByteArray (dkLenOf g dkLen) = NULL ∨ env.setRegionExc ≠ none) :
    let o := Java_com_crypho_plugins_ScryptPlugin_scrypt env g stack N r p dkLen
      (State.entry pass salt errno)
    let released := Event.free (hashPtr env g dkLen)
      (some (hashBytes env g pass salt N r p dkLen))
    o.2.pending ≠ none ∧
    o.2.trace.getLast? = some released ∧
    o.2.trace.filter Event.isFree = [released] ∧
    o.2.hashmem = none ∧
    ((engineRun env g pass salt N r p dkLen).ret ≠ 0 →
      ∃ before, o.2.trace = before ++
        (throwing env (msg_error ((engineRun env g pass salt N r p dkLen).errno.getD errno))
          ++ (releases env ++ [released]))) := by
  intro o released
  have hpro := filter_isFree_prologue env g N r p dkLen
  by_cases hret : (engineRun env g pass salt N r p dkLen).ret = 0
  · by_cases hnew : dkLenOf g dkLen < 0 ∨ env.newByteArray (dkLenOf g dkLen) = NULL
    · have ho : o = _ :=
        new_fail_path env g stack N r p dkLen pass salt errno hacq hm hret hnew
      rw [ho]
      refine ⟨by simp, ?_, ?_, rfl, fun h => absurd hret h⟩
      · simp [releases, released]
      · simp [List.filter_append, hpro, releases, released, Event.isFree]
    · have h0 : 0 ≤ dkLenOf g dkLen := not_lt.mp (fun h => hnew (Or.inl h))
      have hn : env.newByteArray (dkLenOf g dkLen) ≠ NULL := fun h => hnew (Or.inr h)
      have hset : env.setRegionExc ≠ none := by
        rcases herr with h | h | h | h
        · exact absurd hret h
        · exact absurd (Or.inl h) hnew
        · exact absurd (Or.inr h) hnew
        · exact h
      obtain ⟨t, ht⟩ := Option.ne_none_iff_exists'.mp hset
      have ho : o = _ :=
        set_fail_path env g stack N r p dkLen pass salt errno t hacq hm hret h0 hn ht
      rw [ho]
      refine ⟨by simp, ?_, ?_, rfl, fun h => absurd hret h⟩
      · simp [releases, released]
      · simp [List.filter_append, hpro, releases, released, Event.isFree]
  · have ho : o = _ := engine_fail_path env g stack N r p dkLen pass salt errno hacq hm hret
    rw [ho]
    refine ⟨by simp, ?_, ?_, rfl, fun _ => ⟨prologue env g N r p dkLen ++
      [Event.malloc (hashSize env g dkLen) (hashPtr env g dkLen),
        Event.libscrypt_scrypt (env.elems ArrayId.pass) (env.elems ArrayId.salt)
          (hashPtr env g dkLen) (engineArgs env g pass salt N r p dkLen)], by simp⟩⟩
    · simp [releases, throwing, released]
    · simp [List.filter_append, hpro, releases, throwing, released, Event.isFree]

/-- C8 (amended) at a concrete input: `r = 0`; the buffer is freed last. -/
theorem output_buffer_freed_on_error_witness :
    (engineRun sampleEnv sampleGlobals [1, 2] [3]
      (jInteger 16) (jInteger 0) (jInteger 1) (jInteger 4)).ret ≠ 0 ∧
    (Java_com_crypho_plugins_ScryptPlugin_scrypt sampleEnv sampleGlobals garbage
      (jInteger 16) (jInteger 0) (jInteger 1) (jInteger 4)
      (State.entry [1, 2] [3] 0)).2.trace.getLast?
      = some (Event.free (hashPtr sampleEnv sampleGlobals (jInteger 4))
          (some (hashBytes sampleEnv sampleGlobals [1, 2] [3]
            (jInteger 16) (jInteger 0) (jInteger 1) (jInteger 4)))) :=
  ⟨by decide,
    (output_buffer_freed_on_error sampleEnv sampleGlobals garbage
      (jInteger 16) (jInteger 0) (jInteger 1) (jInteger 4) [1, 2] [3] 0
      ⟨rfl, rfl, rfl, rfl, rfl, rfl, by decide, by decide⟩ (by decide)
      (Or.inl (by decide))).2.1⟩

/-- C9: after every call, on success and on every failure path, the caller's passphrase
array and salt array hold the bytes they held before the call, and every
`ReleaseByteArrayElements` of the call is made in `JNI_ABORT` mode (no copy-back). -/
theorem caller_arrays_unchanged (env : Env) (g : Globals) (stack : Locals)
    (N r p dkLen : Option JObject) (pass salt : List Byte) (errno : Int) :
    let o := Java_com_crypho_plugins_ScryptPlugin_scrypt env g stack N r p dkLen
      (State.entry pass salt errno)
    o.2.passArr = pass ∧ o.2.saltArr = salt ∧
    ∀ a q m, Event.ReleaseByteArrayElements a q m ∈ o.2.trace → m = JNI_ABORT := by
  intro o
  exact scrypt_untouched env g stack N r p dkLen pass salt errno

/-- C10, as stated, fails: the engine that fails without storing into `errno` is a
function of its arguments, yet two calls with the same inputs, one entered with `errno`
`EINVAL` and one with `errno` `ENOMEM`, fail with different reasons: the `switch (errno)`
reads what an earlier call left there. -/
theorem stale_errno_counterexample :
    outcome (Java_com_crypho_plugins_ScryptPlugin_scrypt silentEnv sampleGlobals garbage
      (jInteger 16) (jInteger 1) (jInteger 1) (jInteger 4) (State.entry [1, 2] [3] EINVAL))
      = Outcome.failed (Throwable.thrown 5 "N must be a power of 2 greater than 1.") ∧
    outcome (Java_com_crypho_plugins_ScryptPlugin_scrypt silentEnv sampleGlobals garbage
      (jInteger 16) (jInteger 1) (jInteger 1) (jInteger 4) (State.entry [1, 2] [3] ENOMEM))
      = Outcome.failed (Throwable.thrown 5 "Insufficient memory available.") := by
  decide

/-- C10, amended: two calls with the same passphrase bytes, salt bytes, `N`, `r`, `p` and
`dkLen`, made with the same cached method ID and answered alike by the JVM and the
allocator, have the same outcome - the same bytes in the array returned, or the same
exception - whatever `errno` held before each call and whatever the indeterminate values of
the uninitialised locals were, given that the engine is a function of its arguments that
stores an error code into `errno` whenever it returns non-zero. -/
theorem same_inputs_same_outcome (env : Env) (g g' : Globals) (stack stack' : Locals)
    (N r p dkLen : Option JObject) (pass salt : List Byte) (errno errno' : Int)
    (hg : g.JMID_Integer_intValue = g'.JMID_Integer_intValue)
    (herrno : ∀ a, (env.engine a).ret ≠ 0 → (env.engine a).errno ≠ none) :
    outcome (Java_com_crypho_plugins_ScryptPlugin_scrypt env g stack N r p dkLen
        (State.entry pass salt errno)) =
    outcome (Java_com_crypho_plugins_ScryptPlugin_scrypt env g' stack' N r p dkLen
        (State.entry pass salt errno')) := by
  simp only [Java_com_crypho_plugins_ScryptPlugin_scrypt, callIntMethod_eq, ← hg,
    apply_ite outcome, outcome_END, State.entry]
  generalize argValue g.JMID_Integer_intValue N SCRYPT_N none = N_i
  generalize argPending g.JMID_Integer_intValue N none = P1
  generalize argValue g.JMID_Integer_intValue r SCRYPT_r P1 = r_i
  generalize argPending g.JMID_Integer_intValue r P1 = P2
  generalize argValue g.JMID_Integer_intValue p SCRYPT_p P2 = p_i
  generalize argPending g.JMID_Integer_intValue p P2 = P3
  generalize argValue g.JMID_Integer_intValue dkLen 32 P3 = dkLen_i
  generalize argPending g.JMID_Integer_intValue dkLen P3 = P4
  cases P4 with
  | some t =>
    cases h5 : env.getLengthExc ArrayId.pass <;>
      simp [GetArrayLength, ExceptionOccurred, emit, raise, LOGE, outcome, h5]
  | none =>
    cases h5 : env.getLengthExc ArrayId.pass with
    | some t => simp [GetArrayLength, ExceptionOccurred, emit, raise, LOGE, outcome, h5]
    | none =>
      cases h6 : env.getLengthExc ArrayId.salt with
      | some t => simp [GetArrayLength, ExceptionOccurred, emit, raise, LOGE, outcome, h5, h6]
      | none =>
        by_cases h7 : env.elems ArrayId.pass = NULL
        · simp [GetArrayLength, GetByteArrayElements, ExceptionOccurred, emit, raise, LOGE,
            outcome, h5, h6, h7]
        by_cases h8 : env.elems ArrayId.salt = NULL
        · simp [GetArrayLength, GetByteArrayElements, ExceptionOccurred, emit, raise, LOGE,
            outcome, setBuf, h5, h6, h7, h8]
        by_cases hm : env.mallocRet (toUnsigned env.sizeBits dkLen_i) = NULL
        · simp [GetArrayLength, GetByteArrayElements, malloc, throwException, FindClass,
            ThrowNew, ExceptionOccurred, emit, raise, LOGE,
            outcome, setBuf, h5, h6, h7, h8, hm]
          split_ifs <;> rfl
        have he := herrno
          { passwd := pass, passwdlen := toUnsigned env.sizeBits (pass.length : Int),
            salt := salt, saltlen := toUnsigned env.sizeBits (salt.length : Int),
            N := toUnsigned 64 N_i, r := toUnsigned 32 r_i, p := toUnsigned 32 p_i,
            buflen := toUnsigned env.sizeBits dkLen_i }
        by_cases hret : (env.engine
          { passwd := pass, passwdlen := toUnsigned env.sizeBits (pass.length : Int),
            salt := salt, saltlen := toUnsigned env.sizeBits (salt.length : Int),
            N := toUnsigned 64 N_i, r := toUnsigned 32 r_i, p := toUnsigned 32 p_i,
            buflen := toUnsigned env.sizeBits dkLen_i }).ret = 0
        · by_cases hneg : dkLen_i < 0
          · simp [GetArrayLength, GetByteArrayElements, malloc, libscrypt_scrypt, NewByteArray,
              ExceptionOccurred, emit, raise, LOGE, content, arrayOf,
              outcome, setBuf, h5, h6, h7, h8, hm, hret, hneg]
          by_cases hnew : env.newByteArray dkLen_i = NULL
          · simp [GetArrayLength, GetByteArrayElements, malloc, libscrypt_scrypt, NewByteArray,
              ExceptionOccurred, emit, raise, LOGE, content, arrayOf,
              outcome, setBuf, h5, h6, h7, h8, hm, hret, hneg, hnew]
          cases hset : env.setRegionExc with
          | some t =>
            simp [GetArrayLength, GetByteArrayElements, malloc, libscrypt_scrypt, NewByteArray,
              SetByteArrayRegion, ExceptionOccurred, emit, raise, LOGE, content, arrayOf,
              outcome, setBuf, h5, h6, h7, h8, hm, hret, hneg, hnew, hset]
          | none =>
            have h0 : 0 ≤ dkLen_i := not_lt.mp hneg
            simp [GetArrayLength, GetByteArrayElements, malloc, libscrypt_scrypt, NewByteArray,
              SetByteArrayRegion, ExceptionOccurred, emit, raise, LOGE, content, arrayOf,
              outcome, arrayAt, setBuf, h5, h6, h7, h8, hm, hret, hneg, hnew, hset, h0]
        · obtain ⟨e, hx⟩ := Option.ne_none_iff_exists'.mp (he hret)
          simp [GetArrayLength, GetByteArrayElements, malloc, libscrypt_scrypt, throwException,
            FindClass, ThrowNew, ExceptionOccurred, emit, raise, LOGE, content, arrayOf,
            outcome, setBuf, h5, h6, h7, h8, hm, hret, hx]
          split_ifs <;> rfl

/-- C10 (amended) at a concrete input: the sample engine stores an error code whenever it
fails; a call entered with `errno` `EINVAL` and the locals holding garbage, and a call
entered with `errno` `ENOMEM` and the locals holding zeros, have the same outcome. -/
theorem same_inputs_same_outcome_witness :
    (∀ a, (sampleEnv.engine a).ret ≠ 0 → (sampleEnv.engine a).errno ≠ none) ∧
    outcome (Java_com_crypho_plugins_ScryptPlugin_scrypt sampleEnv sampleGlobals garbage
      (jInteger 16) (jInteger 0) (jInteger 1) (jInteger 4) (State.entry [1, 2] [3] EINVAL)) =
    outcome (Java_com_crypho_plugins_ScryptPlugin_scrypt sampleEnv sampleGlobals
      { passphrase := 0, salt_bytes := 0, hashbuf := 0, result := 0 }
      (jInteger 16) (jInteger 0) (jInteger 1) (jInteger 4) (State.entry [1, 2] [3] ENOMEM)) :=
  have h : ∀ a, (sampleEnv.engine a).ret ≠ 0 → (sampleEnv.engine a).errno ≠ none := by
    intro a
    show (sampleEngine a).ret ≠ 0 → (sampleEngine a).errno ≠ none
    unfold sampleEngine
    split_ifs <;> simp
  ⟨h, same_inputs_same_outcome sampleEnv sampleGlobals sampleGlobals garbage
    { passphrase := 0, salt_bytes := 0, hashbuf := 0, result := 0 }
    (jInteger 16) (jInteger 0) (jInteger 1) (jInteger 4) [1, 2] [3] EINVAL ENOMEM rfl h⟩

end ScryptJni
